import Mathlib

/-!
Verification of the Skribbl server game core: a shallow embedding of the
room/turn state machine (gameManager), the visibility policy (gameSanitizer),
the validation helpers (validation.js) and the relevant socket handlers
(server.js, GameService.js), together with proofs of the specified
properties.

JavaScript conventions are modelled as follows: nullable values become
Option, the only falsy string is the empty string, machine numbers are Nat
(all quantities involved are non-negative integers in the source), and
functions that return null or throw on a structural precondition return
Option / Except.
-/

namespace Skribbl

/-- A participant, as stored in game.players (gameManager.js joinGame). -/
structure Player where
  id : String
  name : String
  avatar : String
  score : Nat
  isDrawer : Bool
  hasGuessed : Bool
deriving Repr, DecidableEq

/-- One stroke payload of the drawing socket event (server.js / validation.js). -/
structure Stroke where
  x : Int
  y : Int
  prevX : Int
  prevY : Int
  color : String
  lineWidth : Int
  kind : String
deriving Repr, DecidableEq

/-- The per-room game object kept in GameManager.games. String-valued
status ("waiting" | "playing" | "finished") and gamePhase
("choosing" | "drawing" | "results") mirror the source. -/
structure Game where
  id : String
  roomCode : String
  ownerId : Option String
  players : List Player
  playersReady : List String
  bannedPlayers : List String
  currentWord : Option String
  wordChoices : Option (List String)
  currentDrawer : Option Player
  round : Nat
  maxRounds : Nat
  drawTime : Nat
  status : String
  gamePhase : String
  timeLeft : Nat
  drawingData : List Stroke
  hints : String
deriving Repr, DecidableEq

/-- JS falsiness of a nullable string: null, undefined and "" are falsy. -/
def optStrFalsy : Option String → Bool
  | none => true
  | some s => s == ""

/-- gameSanitizer.js canPlayerSeeWord, translated clause by clause. -/
def canPlayerSeeWord (game : Game) (playerId : String) : Bool :=
  if playerId == "" then false
  else if game.status != "playing" then true
  else if optStrFalsy game.currentWord then false
  else if (game.currentDrawer.map Player.id) == some playerId then true
  else if (match game.players.find? (fun p => p.id == playerId) with
           | some p => p.hasGuessed
           | none => false) then true
  else if game.gamePhase == "choosing" then
    (game.currentDrawer.map Player.id) == some playerId
  else if game.gamePhase == "results" then true
  else false

/-- The default hint mask produced by sanitizeGameForPlayer when hints are
absent: one underscore per non-space character, five spaces per space,
joined with single spaces; empty when there is no current word. -/
def defaultHints : Option String → String
  | some w => String.intercalate " "
      (w.toList.map (fun c => if c = ' ' then "     " else "_"))
  | none => ""

/-- gameSanitizer.js sanitizeGameForPlayer: null game propagates, a shallow
copy is redacted when the viewer may not see the word. -/
def sanitizeGameForPlayer (game : Option Game) (playerId : String) : Option Game :=
  match game with
  | none => none
  | some g =>
    if canPlayerSeeWord g playerId then some g
    else some { g with
      currentWord := none,
      hints := if g.gamePhase == "drawing" && g.hints == ""
               then defaultHints g.currentWord
               else g.hints }

/-- Word characters of the JS regex escape class backslash-w: ASCII
alphanumerics and underscore. -/
def isWordChar (c : Char) : Bool := c.isAlphanum || c == '_'

/-- Word-character status of an optional character; out of bounds counts as
a non-word character. -/
def wordCharAt : Option Char → Bool
  | none => false
  | some c => isWordChar c

/-- A JS regex word boundary holds between two (optional) characters when
exactly one side is a word character. -/
def isBoundary (a b : Option Char) : Bool := wordCharAt a != wordCharAt b

/-- Case-insensitive character comparison (ASCII folding, as the i flag on
the escaped literal pattern). -/
def ciEq (a b : Char) : Bool := a.toLower == b.toLower

/-- Does the text start with the word, compared case-insensitively? -/
def ciStartsWith : List Char → List Char → Bool
  | c :: cr, d :: dr => ciEq c d && ciStartsWith cr dr
  | [], _ => true
  | _, [] => false

/-- Left-to-right scanner realizing the global regex replace of
filterChatMessage: at each position, if a word boundary precedes, the word
matches case-insensitively, and a word boundary follows the matched text,
the match is replaced by as many asterisks and scanning resumes after it;
otherwise the character is copied. The fuel always starts at the text
length, which suffices because each step consumes at least one character;
an exhausted-fuel step copies the rest unchanged. -/
def maskScan (w : List Char) : Nat → Option Char → List Char → List Char
  | 0, _, l => l
  | _ + 1, _, [] => []
  | fuel + 1, prev, c :: cs =>
    if ciStartsWith w (c :: cs) && isBoundary prev (some c) &&
       isBoundary ((c :: cs).take w.length).getLast? ((c :: cs).get? w.length) then
      List.replicate w.length '*' ++
        maskScan w fuel ((c :: cs).take w.length).getLast? ((c :: cs).drop w.length)
    else
      c :: maskScan w fuel (some c) cs

/-- gameSanitizer.js filterChatMessage (identical to
GameManager.filterChatMessage): falsy word or message are returned
unchanged; otherwise every case-insensitive whole-word occurrence of the
word is replaced by an equal-length run of asterisks. -/
def filterChatMessage (message currentWord : String) : String :=
  if currentWord == "" || message == "" then message
  else ⟨maskScan currentWord.toList message.toList.length none message.toList⟩

/-- Raw client-supplied settings as they reach the server: each field may be
absent (undefined). All observed values are non-negative integers. -/
structure RawSettings where
  drawTime : Option Nat
  maxRounds : Option Nat
deriving Repr, DecidableEq

/-- validation.js validateGameSettings: a missing settings object or an
out-of-range field falls back to the defaults 80 / 3. Returns the pair
(drawTime, maxRounds). -/
def validateGameSettings : Option RawSettings → Nat × Nat
  | none => (80, 3)
  | some s =>
    ((match s.drawTime with
      | some t => if 30 ≤ t ∧ t ≤ 300 then t else 80
      | none => 80),
     (match s.maxRounds with
      | some r => if 1 ≤ r ∧ r ≤ 10 then r else 3
      | none => 3))

/-- Case-insensitive hexadecimal digit, as matched by the color regex
character class under the i flag. -/
def isHexDigitCI (c : Char) : Bool :=
  ('0' ≤ c && c ≤ '9') || ('A' ≤ c && c ≤ 'F') || ('a' ≤ c && c ≤ 'f')

/-- The color test of validation.js: a hash sign followed by exactly six
hex digits, case-insensitive (the regex carries the i flag). -/
def isHexColor (s : String) : Bool :=
  match s.toList with
  | '#' :: rest => rest.length == 6 && rest.all isHexDigitCI
  | _ => false

/-- validation.js validateDrawingData on a well-typed stroke payload. -/
def validateDrawingData (d : Stroke) : Bool :=
  (0 ≤ d.x && d.x ≤ 10000) && (0 ≤ d.y && d.y ≤ 10000) &&
  (0 ≤ d.prevX && d.prevX ≤ 10000) && (0 ≤ d.prevY && d.prevY ≤ 10000) &&
  isHexColor d.color &&
  (1 ≤ d.lineWidth && d.lineWidth ≤ 50) &&
  (d.kind == "draw" || d.kind == "erase")

/-- GameManager.startGame on the in-memory game, with the three random
words drawn by the database call passed as a parameter. Returns none (null)
when fewer than two players are present. -/
def startGameMgr (g : Game) (words : List String) : Option Game :=
  if g.players.length < 2 then none
  else
    let reset := g.players.map (fun p => { p with hasGuessed := false })
    some { g with
      players := reset
      status := "playing"
      currentDrawer := reset.get? 0
      wordChoices := some words
      gamePhase := "choosing"
      timeLeft := 10
      hints := "" }

/-- The index the rotation advances to in GameManager.nextTurn:
(index of the current drawer + 1) mod players.length, where a missing or
departed drawer counts as index -1, so the rotation restarts at 0. -/
def nextDrawerIndex (g : Game) : Nat :=
  match g.currentDrawer with
  | some d =>
    if d.id == "" then 0
    else match g.players.findIdx? (fun p => p.id == d.id) with
      | some i => (i + 1) % g.players.length
      | none => 0
  | none => 0

/-- GameManager.nextTurn on the in-memory game, with the freshly drawn word
choices passed as a parameter; timers, the round-end emission and the
3-second pause are external. Returns none for an empty player list, where
the source indexes players[NaN] and throws before completing the
transition. When the rotation wraps past maxRounds the game finishes with
only the owner marked ready and no new drawer or word choices. -/
def nextTurn (g : Game) (words : List String) : Option Game :=
  if g.players.length == 0 then none
  else
    let nextIdx := nextDrawerIndex g
    if nextIdx == 0 && g.round + 1 > g.maxRounds then
      some { g with
        round := g.round + 1
        status := "finished"
        playersReady := g.ownerId.toList }
    else
      let round1 := if nextIdx == 0 then g.round + 1 else g.round
      let reset := g.players.map (fun p => { p with hasGuessed := false })
      some { g with
        round := round1
        players := reset
        currentDrawer := reset.get? nextIdx
        wordChoices := some words
        currentWord := none
        gamePhase := "choosing"
        timeLeft := 10
        drawingData := []
        hints := "" }

/-- JS String.prototype.toLowerCase, character by character (ASCII folding
suffices for the stored word lists). -/
def strToLower (s : String) : String := ⟨s.toList.map Char.toLower⟩

/-- JS String.prototype.trim: strip whitespace from both ends. -/
def strTrim (s : String) : String :=
  ⟨((s.toList.dropWhile Char.isWhitespace).reverse.dropWhile
      Char.isWhitespace).reverse⟩

/-- Update the first player matched by the predicate, as a JS find followed
by in-place mutation of the found record. -/
def bumpFirst (pred : Player → Bool) (f : Player → Player) : List Player → List Player
  | [] => []
  | p :: ps => if pred p then f p :: ps else p :: bumpFirst pred f ps

/-- GameManager.checkGuess: guard order, score updates and the returned
correctness flag follow the source. A correct guess with a null
currentDrawer reaches game.currentDrawer.id inside the drawer lookup and
throws after the guesser's score was already bumped; the catch block
returns false, which the last branch models. -/
def checkGuess (g : Game) (userId guess : String) : Bool × Game :=
  if optStrFalsy g.currentWord || g.gamePhase != "drawing" then (false, g)
  else if (g.currentDrawer.map Player.id) == some userId then (false, g)
  else
    let w := g.currentWord.getD ""
    let isCorrect := strTrim (strToLower guess) == strToLower w
    if isCorrect then
      match g.players.find? (fun p => p.id == userId) with
      | none => (true, g)
      | some _ =>
        let points := max 10 (100 + g.timeLeft * 50 / g.drawTime)
        let players1 := bumpFirst (fun p => p.id == userId)
          (fun p => { p with score := p.score + points }) g.players
        match g.currentDrawer with
        | some dr =>
          let players2 := bumpFirst (fun p => p.id == dr.id)
            (fun p => { p with score := p.score + 25 }) players1
          let players3 := bumpFirst (fun p => p.id == userId)
            (fun p => { p with hasGuessed := true }) players2
          (true, { g with players := players3 })
        | none => (false, { g with players := players1 })
    else (false, g)

/-- GameManager.allPlayersGuessed. -/
def allPlayersGuessed (g : Game) : Bool :=
  let nonDrawers := g.players.filter
    (fun p => (some p.id) != (g.currentDrawer.map Player.id))
  nonDrawers.length > 0 &&
    (nonDrawers.filter (fun p => p.hasGuessed)).length == nonDrawers.length

/-- GameManager.removePlayer restricted to the single game object: none
models deletion of an emptied room (the store and timer bookkeeping is
handled by the manager-level version). The transfer index models
Math.floor(Math.random() * remaining.length). -/
def removePlayerGame (g : Game) (userId : String) (r : Nat) : Option Game :=
  let wasOwner := g.ownerId == some userId
  let players1 := g.players.filter (fun p => p.id != userId)
  let ready1 := g.playersReady.filter (fun pid => pid != userId)
  if players1.length == 0 then none
  else
    let g1 := { g with players := players1, playersReady := ready1 }
    if wasOwner then
      match players1.get? (r % players1.length) with
      | some np =>
        some { g1 with
          ownerId := some np.id
          playersReady := if g.status == "finished" && !(ready1.contains np.id)
                          then ready1 ++ [np.id] else ready1 }
      | none => some g1
    else some g1

/-- GameManager.restartGame on the in-memory game: settings are
destructured with defaults 80 / 3 for missing fields only; no range
validation happens here. -/
def restartGameMgr (g : Game) (settings : RawSettings) : Game :=
  { g with
    currentWord := none
    wordChoices := none
    currentDrawer := none
    round := 1
    maxRounds := settings.maxRounds.getD 3
    drawTime := settings.drawTime.getD 80
    status := "waiting"
    gamePhase := "drawing"
    timeLeft := 0
    drawingData := []
    hints := ""
    playersReady := g.ownerId.toList
    players := g.players.map
      (fun p => { p with score := 0, hasGuessed := false, isDrawer := false }) }

/-- The in-memory GameManager store: the games map and the interval-timer
maps keyed by game id (draw and choice timers live in timers under the
keys id, id ++ "_draw" and id ++ "_choice"; hint timers in hintTimers
under id). -/
structure GameManager where
  games : List (String × Game)
  timers : List String
  hintTimers : List String
deriving Repr, DecidableEq

/-- Store lookup by game id. -/
def lookupGame (m : GameManager) (gameId : String) : Option Game :=
  List.lookup gameId m.games

/-- Replace the stored game object under a game id. -/
def setGame (m : GameManager) (gameId : String) (g : Game) : GameManager :=
  { m with games := m.games.map (fun kv =>
      if kv.1 == gameId then (kv.1, g) else kv) }

/-- GameManager.clearGameTimers: drops the choice, draw and hint interval
handles of one game. -/
def clearGameTimers (m : GameManager) (gameId : String) : GameManager :=
  { m with
    timers := m.timers.filter (fun k =>
      !(k == gameId || k == gameId ++ "_choice" || k == gameId ++ "_draw"))
    hintTimers := m.hintTimers.filter (fun k => k != gameId) }

/-- GameManager.removePlayer at the store level: an emptied room is deleted
and all its timers cancelled; a departing drawer of a playing room has the
timers cancelled; a departing owner hands ownership to the remaining player
at the transfer index, who is auto-readied when the game is finished. -/
def removePlayer (m : GameManager) (gameId userId : String) (r : Nat) : GameManager :=
  match lookupGame m gameId with
  | none => m
  | some g =>
    let wasDrawer := (g.currentDrawer.map Player.id) == some userId
    match removePlayerGame g userId r with
    | none =>
      clearGameTimers { m with games := m.games.filter (fun kv => kv.1 != gameId) } gameId
    | some g1 =>
      let m1 := if wasDrawer && g.status == "playing"
                then clearGameTimers m gameId else m
      setGame m1 gameId g1

/-- GameService.startGame followed by GameManager.startGame: a missing game
or a non-owner requester throws the denial reason; the manager then
silently returns null for fewer than two players. -/
def serviceStartGame (m : GameManager) (gameId requesterId : String)
    (words : List String) : Except String (Option Game) :=
  match lookupGame m gameId with
  | none => Except.error "Only the room owner can start the game"
  | some g =>
    if g.ownerId == some requesterId then Except.ok (startGameMgr g words)
    else Except.error "Only the room owner can start the game"

/-- GameService.restartGame followed by GameManager.restartGame: a missing
game or a non-owner requester throws the denial reason. The raw settings
reach the manager unvalidated (the restart-game socket handler passes
data.settings through directly). -/
def serviceRestartGame (m : GameManager) (gameId requesterId : String)
    (settings : RawSettings) : Except String Game :=
  match lookupGame m gameId with
  | none => Except.error "Only the room owner can restart the game"
  | some g =>
    if g.ownerId == some requesterId then Except.ok (restartGameMgr g settings)
    else Except.error "Only the room owner can restart the game"

/-- The drawing socket handler of server.js (after rate limiting): the
stroke is accepted only from the current drawer of a playing game and only
if it validates; every other case is silently dropped (none) with no error
event. An accepted stroke is appended after the memory cap that keeps the
last 4000 strokes once 5000 are exceeded. -/
def handleDrawing (g : Game) (senderId : String) (d : Stroke) : Option Game :=
  if (g.currentDrawer.map Player.id) == some senderId && g.status == "playing" then
    if validateDrawingData d then
      let base := if g.drawingData.length > 5000
                  then g.drawingData.drop (g.drawingData.length - 4000)
                  else g.drawingData
      some { g with drawingData := base ++ [d] }
    else none
  else none

/-- The visibility cascade exactly as the specification words it: not
playing, then null word, then drawer, then correct guesser, then the
choosing-phase drawer gate, then the results phase, else hidden. -/
def canSeeWordSpec (g : Game) (p : String) : Bool :=
  if g.status != "playing" then true
  else if g.currentWord == none then false
  else if (g.currentDrawer.map Player.id) == some p then true
  else if (match g.players.find? (fun q => q.id == p) with
           | some q => q.hasGuessed
           | none => false) then true
  else if g.gamePhase == "choosing" then
    (g.currentDrawer.map Player.id) == some p
  else if g.gamePhase == "results" then true
  else false

/-- C1: for every game and every (non-empty) viewer id, canPlayerSeeWord
computes exactly the specified cascade: true outside playing status, false
without a current word, true for the drawer, true after a correct guess,
drawer-only during choosing, true during results, false otherwise. (The
excluded corner cases are the falsy inputs: an empty viewer id and an
empty-string current word, which the source treats like null.) -/
theorem canPlayerSeeWord_matches_cascade (g : Game) (p : String)
    (hp : p ≠ "") (hw : g.currentWord ≠ some "") :
    canPlayerSeeWord g p = canSeeWordSpec g p := by
  unfold canPlayerSeeWord canSeeWordSpec
  have hp1 : (p == "") = false := by
    simp only [beq_eq_false_iff_ne, ne_eq]
    exact hp
  cases hcw : g.currentWord with
  | none => simp [hp1, optStrFalsy, hcw]
  | some w =>
    have hw1 : (w == "") = false := by
      simp only [beq_eq_false_iff_ne, ne_eq]
      intro h
      exact hw (by rw [hcw, h])
    simp [hp1, optStrFalsy, hcw, hw1]

/-- Concrete game used to witness C1 (the mock of gameSanitizer.test.js). -/
def c1Game : Game :=
  { id := "game1", roomCode := "ABC123", ownerId := some "drawer1"
    players :=
      [{ id := "drawer1", name := "Drawer", avatar := "", score := 0,
         isDrawer := true, hasGuessed := false },
       { id := "player2", name := "Player2", avatar := "", score := 0,
         isDrawer := false, hasGuessed := false },
       { id := "player3", name := "Player3", avatar := "", score := 0,
         isDrawer := false, hasGuessed := true }]
    playersReady := [], bannedPlayers := []
    currentWord := some "elephant", wordChoices := none
    currentDrawer := some { id := "drawer1", name := "Drawer", avatar := "",
                            score := 0, isDrawer := true, hasGuessed := false }
    round := 1, maxRounds := 3, drawTime := 80, status := "playing"
    gamePhase := "drawing", timeLeft := 50, drawingData := [], hints := "" }

/-- Witness for C1 at the mock game and the non-guessing viewer. -/
theorem canPlayerSeeWord_matches_cascade_witness :
    ("player2" ≠ "" ∧ c1Game.currentWord ≠ some "") ∧
    canPlayerSeeWord c1Game "player2" = canSeeWordSpec c1Game "player2" :=
  ⟨⟨by decide, by decide⟩,
   canPlayerSeeWord_matches_cascade c1Game "player2" (by decide) (by decide)⟩

/-! # C2: chat redaction -/

/-- Relation between an input character and the corresponding output
character of the redaction: either masked or copied verbatim. -/
def starOrSame (a b : Char) : Prop := b = '*' ∨ b = a

theorem ciStartsWith_length {w l : List Char} (h : ciStartsWith w l = true) :
    w.length ≤ l.length := by
  induction w generalizing l with
  | nil => simp
  | cons a as ih =>
    cases l with
    | nil => simp [ciStartsWith] at h
    | cons b bs =>
      rw [ciStartsWith, Bool.and_eq_true] at h
      simpa [Nat.succ_le_succ_iff] using ih h.2

theorem forall2_star_replicate (xs : List Char) :
    List.Forall₂ starOrSame xs (List.replicate xs.length '*') := by
  induction xs with
  | nil => exact List.Forall₂.nil
  | cons a as ih =>
    rw [List.length_cons, List.replicate_succ]
    exact List.Forall₂.cons (Or.inl rfl) ih

theorem maskScan_forall2 (w : List Char) (fuel : Nat) :
    ∀ (prev : Option Char) (l : List Char),
    List.Forall₂ starOrSame l (maskScan w fuel prev l) := by
  induction fuel with
  | zero =>
    intro prev l
    rw [maskScan]
    exact List.forall₂_same.2 (fun x _ => Or.inr rfl)
  | succ fuel ih =>
    intro prev l
    cases l with
    | nil => rw [maskScan]; exact List.Forall₂.nil
    | cons c cs =>
      rw [maskScan]
      split
      · rename_i hcond
        rw [Bool.and_eq_true, Bool.and_eq_true] at hcond
        have hlen : w.length ≤ (c :: cs).length :=
          ciStartsWith_length hcond.1.1
        have htake : ((c :: cs).take w.length).length = w.length := by
          rw [List.length_take]
          exact Nat.min_eq_left hlen
        conv_lhs => rw [← List.take_append_drop w.length (c :: cs)]
        refine List.rel_append ?_ (ih _ _)
        have hstar := forall2_star_replicate ((c :: cs).take w.length)
        rw [htake] at hstar
        exact hstar
      · exact List.Forall₂.cons (Or.inr rfl) (ih _ _)

/-- C2: filterChatMessage masks exactly the case-insensitive whole-word
occurrences of the secret with equal-length asterisk runs and copies all
other text verbatim: the specified elephant example, an embedded non-match,
a multi-word secret, and a secret containing a regex metacharacter all
behave as claimed, and in general every output character is either an
asterisk or the input character at the same position, so redaction always
preserves the message length. -/
theorem filterChatMessage_spec :
    filterChatMessage "elephant elephants" "elephant" = "******** elephants" ∧
    filterChatMessage "Cat scat cat!" "cat" = "*** scat ***!" ∧
    filterChatMessage "eat a hot dog now" "hot dog" = "eat a ******* now" ∧
    filterChatMessage "a+b x" "+b" = "a** x" ∧
    (∀ message word : String,
      List.Forall₂ starOrSame message.toList (filterChatMessage message word).toList) ∧
    (∀ message word : String,
      (filterChatMessage message word).length = message.length) := by
  refine ⟨by decide, by decide, by decide, by decide, ?_, ?_⟩
  · intro message word
    unfold filterChatMessage
    split
    · exact List.forall₂_same.2 (fun x _ => Or.inr rfl)
    · exact maskScan_forall2 _ _ _ _
  · intro message word
    unfold filterChatMessage
    split
    · rfl
    · have h := maskScan_forall2 word.toList message.toList.length none message.toList
      exact (h.length_eq).symm

/-! # C3: scoring of a correct guess -/

theorem find?_bumpFirst_self (P : Player → Bool) (f : Player → Player)
    (hPf : ∀ p, P (f p) = P p) :
    ∀ (l : List Player) (pl : Player), l.find? P = some pl →
      (bumpFirst P f l).find? P = some (f pl) := by
  intro l
  induction l with
  | nil => intro pl h; simp at h
  | cons p ps ih =>
    intro pl h
    by_cases hp : P p = true
    · rw [List.find?_cons_of_pos _ hp] at h
      cases h
      rw [bumpFirst, if_pos hp]
      exact List.find?_cons_of_pos _ (by rw [hPf]; exact hp)
    · rw [List.find?_cons_of_neg _ hp] at h
      rw [bumpFirst, if_neg hp]
      rw [List.find?_cons_of_neg _ hp]
      exact ih pl h

theorem find?_bumpFirst_other (P Q : Player → Bool) (f : Player → Player)
    (hQf : ∀ p, Q (f p) = Q p) (hdis : ∀ p, Q p = true → P p = false) :
    ∀ (l : List Player),
      (bumpFirst P f l).find? Q = l.find? Q := by
  intro l
  induction l with
  | nil => rfl
  | cons p ps ih =>
    by_cases hp : P p = true
    · have hQp : ¬ Q p = true := fun hQ => by
        rw [hdis p hQ] at hp
        exact absurd hp (by simp)
      rw [bumpFirst, if_pos hp]
      rw [List.find?_cons_of_neg _ (by rw [hQf]; exact hQp)]
      rw [List.find?_cons_of_neg _ hQp]
    · rw [bumpFirst, if_neg hp]
      by_cases hQ : Q p = true
      · rw [List.find?_cons_of_pos _ hQ, List.find?_cons_of_pos _ hQ]
      · rw [List.find?_cons_of_neg _ hQ, List.find?_cons_of_neg _ hQ]
        exact ih

/-- C3: a correct, trimmed, case-insensitive guess by a non-drawer during
the drawing phase awards the guesser exactly
max(10, 100 + floor(timeLeft / drawTime * 50)) points, marks them as
having guessed, and awards the drawer a flat 25 points (per correct
guess, without any cap); at full time the guesser's award is 150 and at
zero time it is 100. -/
theorem checkGuess_scoring (g : Game) (uid guess w : String)
    (dr pl dpl : Player)
    (hphase : g.gamePhase = "drawing")
    (hword : g.currentWord = some w) (hw : w ≠ "")
    (hdr : g.currentDrawer = some dr)
    (hne : dr.id ≠ uid)
    (hfind : g.players.find? (fun p => p.id == uid) = some pl)
    (hdfind : g.players.find? (fun p => p.id == dr.id) = some dpl)
    (hguess : strTrim (strToLower guess) = strToLower w)
    (hdt : 0 < g.drawTime) :
    ∃ g', checkGuess g uid guess = (true, g') ∧
      g'.players.find? (fun p => p.id == uid) =
        some { pl with
               score := pl.score + max 10 (100 + g.timeLeft * 50 / g.drawTime),
               hasGuessed := true } ∧
      g'.players.find? (fun p => p.id == dr.id) =
        some { dpl with score := dpl.score + 25 } ∧
      (g.timeLeft = g.drawTime →
        max 10 (100 + g.timeLeft * 50 / g.drawTime) = 150) ∧
      (g.timeLeft = 0 → max 10 (100 + g.timeLeft * 50 / g.drawTime) = 100) := by
  have hwfalse : optStrFalsy g.currentWord = false := by
    rw [hword]
    simpa [optStrFalsy] using hw
  have hphaseb : (g.gamePhase != "drawing") = false := by
    simp [hphase]
  have hdrb : ((g.currentDrawer.map Player.id) == some uid) = false := by
    rw [hdr]
    simpa using hne
  have hcorrect : (strTrim (strToLower guess) == strToLower (g.currentWord.getD "")) = true := by
    rw [hword]
    simpa using hguess
  have hdis1 : ∀ p : Player, (p.id == uid) = true → (p.id == dr.id) = false := by
    intro p hq
    simp only [beq_iff_eq] at hq
    rw [hq]
    exact beq_eq_false_iff_ne.mpr (Ne.symm hne)
  have hdis2 : ∀ p : Player, (p.id == dr.id) = true → (p.id == uid) = false := by
    intro p hq
    simp only [beq_iff_eq] at hq
    rw [hq]
    exact beq_eq_false_iff_ne.mpr hne
  have h1 := find?_bumpFirst_self (fun p => p.id == uid)
    (fun p => { p with
      score := p.score + max 10 (100 + g.timeLeft * 50 / g.drawTime) })
    (fun p => rfl) g.players pl hfind
  have h2 := find?_bumpFirst_other (fun p => p.id == dr.id) (fun p => p.id == uid)
    (fun p => { p with score := p.score + 25 }) (fun p => rfl) hdis1
  have h3 := find?_bumpFirst_self (fun p => p.id == uid)
    (fun p => { p with hasGuessed := true }) (fun p => rfl)
  have h4 := find?_bumpFirst_other (fun p => p.id == uid) (fun p => p.id == dr.id)
    (fun p => { p with
      score := p.score + max 10 (100 + g.timeLeft * 50 / g.drawTime) })
    (fun p => rfl) hdis2 g.players
  have h5 := find?_bumpFirst_self (fun p => p.id == dr.id)
    (fun p => { p with score := p.score + 25 }) (fun p => rfl)
  have h6 := find?_bumpFirst_other (fun p => p.id == dr.id) (fun p => p.id == uid)
    (fun p => { p with score := p.score + 25 }) (fun p => rfl) hdis1
  have h7 := find?_bumpFirst_other (fun p => p.id == uid) (fun p => p.id == dr.id)
    (fun p => { p with hasGuessed := true }) (fun p => rfl) hdis2
  have hcorrect2 : (strTrim (strToLower guess) == strToLower w) = true := by
    simpa using hguess
  rw [checkGuess, hwfalse, hphaseb]
  simp only [Bool.false_or, Bool.or_self, if_false, hdrb, hcorrect, if_true,
    Bool.false_eq_true, hword, Option.getD_some, ite_false, ite_true]
  rw [hfind, hdr, if_pos hcorrect2]
  refine ⟨_, rfl, ?_, ?_, ?_, ?_⟩
  · exact h3 _ _ (by rw [h2]; exact h1)
  · rw [h7, h5 _ _ (by rw [h4]; exact hdfind)]
  · intro ht
    rw [ht, Nat.mul_div_cancel_left 50 hdt]
    decide
  · intro ht
    rw [ht]
    simp [Nat.zero_div]

/-- Drawer used in the C3 witness game. -/
def c3A : Player :=
  { id := "A", name := "Alice", avatar := "", score := 5,
    isDrawer := true, hasGuessed := false }

/-- Guesser used in the C3 witness game. -/
def c3B : Player :=
  { id := "B", name := "Bob", avatar := "", score := 7,
    isDrawer := false, hasGuessed := false }

/-- Concrete mid-turn game used to witness C3: full time left. -/
def c3Game : Game :=
  { id := "g1", roomCode := "ROOM1", ownerId := some "A"
    players := [c3A, c3B]
    playersReady := [], bannedPlayers := []
    currentWord := some "cat", wordChoices := none
    currentDrawer := some c3A
    round := 1, maxRounds := 3, drawTime := 80, status := "playing"
    gamePhase := "drawing", timeLeft := 80, drawingData := [], hints := "" }

/-- Witness for C3: at full time the guesser gains 150 and the drawer 25. -/
theorem checkGuess_scoring_witness :
    (c3Game.gamePhase = "drawing" ∧ c3Game.currentWord = some "cat" ∧
     c3Game.currentDrawer = some c3A ∧ c3A.id ≠ "B" ∧
     c3Game.players.find? (fun p => p.id == "B") = some c3B ∧
     c3Game.players.find? (fun p => p.id == c3A.id) = some c3A ∧
     strTrim (strToLower "Cat ") = strToLower "cat" ∧ 0 < c3Game.drawTime) ∧
    (∃ g', checkGuess c3Game "B" "Cat " = (true, g') ∧
      g'.players.find? (fun p => p.id == "B") =
        some { c3B with
               score := c3B.score +
                 max 10 (100 + c3Game.timeLeft * 50 / c3Game.drawTime),
               hasGuessed := true } ∧
      g'.players.find? (fun p => p.id == c3A.id) =
        some { c3A with score := c3A.score + 25 } ∧
      (c3Game.timeLeft = c3Game.drawTime →
        max 10 (100 + c3Game.timeLeft * 50 / c3Game.drawTime) = 150) ∧
      (c3Game.timeLeft = 0 →
        max 10 (100 + c3Game.timeLeft * 50 / c3Game.drawTime) = 100)) :=
  ⟨by decide,
   checkGuess_scoring c3Game "B" "Cat " "cat" c3A c3B c3A rfl rfl (by decide)
     rfl (by decide) (by decide) (by decide) (by decide) (by decide)⟩

/-! # C4: turn rotation -/

/-- What one completed nextTurn call guarantees: the fallback lands on
index 0; the rotation index is (i+1) mod n for a present drawer; wrapping
past maxRounds finishes the game with only the owner ready and leaves
drawer, word choices, phase and clock untouched; otherwise the player at
the rotation index becomes drawer (with the guess flags reset) and the
round is incremented exactly on a wrap. -/
def NextTurnSpec (g : Game) (words : List String) : Prop :=
  ∃ g', nextTurn g words = some g' ∧
    ((g.currentDrawer = none ∨
      (∃ d, g.currentDrawer = some d ∧
        (d.id = "" ∨ g.players.findIdx? (fun p => p.id == d.id) = none))) →
      nextDrawerIndex g = 0) ∧
    (∀ d i, g.currentDrawer = some d → d.id ≠ "" →
      g.players.findIdx? (fun p => p.id == d.id) = some i →
      nextDrawerIndex g = (i + 1) % g.players.length) ∧
    (nextDrawerIndex g = 0 ∧ g.round + 1 > g.maxRounds →
      g'.status = "finished" ∧ g'.playersReady = g.ownerId.toList ∧
      g'.round = g.round + 1 ∧ g'.currentDrawer = g.currentDrawer ∧
      g'.wordChoices = g.wordChoices ∧ g'.gamePhase = g.gamePhase ∧
      g'.timeLeft = g.timeLeft) ∧
    (¬ (nextDrawerIndex g = 0 ∧ g.round + 1 > g.maxRounds) →
      g'.currentDrawer =
        (g.players.map (fun p => { p with hasGuessed := false })).get?
          (nextDrawerIndex g) ∧
      (g'.currentDrawer.map Player.id) =
        (g.players.get? (nextDrawerIndex g)).map Player.id ∧
      g'.round = (if nextDrawerIndex g = 0 then g.round + 1 else g.round) ∧
      g'.status = g.status ∧ g'.gamePhase = "choosing" ∧
      g'.wordChoices = some words ∧ g'.currentWord = none ∧
      g'.timeLeft = 10)

/-- Player constructor for the C4 scenario room. -/
def c4P (i : String) : Player :=
  { id := i, name := i, avatar := "", score := 0,
    isDrawer := false, hasGuessed := false }

/-- Three-player room (A, B, C) with maxRounds = 2 and drawer A, mid-game. -/
def c4Game : Game :=
  { id := "g4", roomCode := "ROOM4", ownerId := some "A"
    players := [c4P "A", c4P "B", c4P "C"]
    playersReady := [], bannedPlayers := []
    currentWord := some "word", wordChoices := none
    currentDrawer := some (c4P "A")
    round := 1, maxRounds := 2, drawTime := 80, status := "playing"
    gamePhase := "drawing", timeLeft := 0, drawingData := [], hints := "" }

/-- One nextTurn call of the scenario (fresh word choices fixed). -/
def c4Step (g : Game) : Game := (nextTurn g ["x1", "x2", "x3"]).getD g

def c4S1 : Game := c4Step c4Game
def c4S2 : Game := c4Step c4S1
def c4S3 : Game := c4Step c4S2
def c4S4 : Game := c4Step c4S3
def c4S5 : Game := c4Step c4S4
def c4S6 : Game := c4Step c4S5

/-- C4: each completed nextTurn call advances the drawer to
players[(i+1) mod n] (players[0] when the current drawer is absent),
increments the round exactly when the index wraps to 0 and finishes the
game once the incremented round exceeds maxRounds, freezing drawer and
word choices and readying only the owner; in the concrete 3-player room
with maxRounds = 2 the drawer sequence is A→B→C→A (round reaching 2
exactly at the wrap), then B→C, and the call after the second full cycle
sets status to finished. -/
theorem nextDrawerIndex_fallback (g : Game)
    (hcase : g.currentDrawer = none ∨
      (∃ d, g.currentDrawer = some d ∧
        (d.id = "" ∨ g.players.findIdx? (fun p => p.id == d.id) = none))) :
    nextDrawerIndex g = 0 := by
  rcases hcase with h | ⟨d, hd, h | h⟩
  · simp [nextDrawerIndex, h]
  · simp [nextDrawerIndex, hd, h]
  · simp [nextDrawerIndex, hd, h]

theorem nextDrawerIndex_present (g : Game) (d : Player) (i : Nat)
    (hd : g.currentDrawer = some d) (hdne : d.id ≠ "")
    (hidx : g.players.findIdx? (fun p => p.id == d.id) = some i) :
    nextDrawerIndex g = (i + 1) % g.players.length := by
  simp [nextDrawerIndex, hd, hidx, hdne]

theorem nextTurn_rotation :
    (∀ (g : Game) (words : List String), 0 < g.players.length →
      NextTurnSpec g words) ∧
    (c4S1.currentDrawer.map Player.id = some "B" ∧ c4S1.round = 1 ∧
     c4S2.currentDrawer.map Player.id = some "C" ∧ c4S2.round = 1 ∧
     c4S3.currentDrawer.map Player.id = some "A" ∧ c4S3.round = 2 ∧
     c4S3.status = "playing" ∧
     c4S4.currentDrawer.map Player.id = some "B" ∧ c4S4.round = 2 ∧
     c4S5.currentDrawer.map Player.id = some "C" ∧ c4S5.round = 2 ∧
     c4S5.status = "playing" ∧
     c4S6.status = "finished" ∧ c4S6.playersReady = ["A"] ∧
     c4S6.currentDrawer.map Player.id = some "C" ∧
     c4S6.round = 3) := by
  constructor
  · intro g words hn
    have h0 : ¬ ((g.players.length == 0) = true) := by
      simp only [beq_iff_eq]
      omega
    by_cases hfin :
        (nextDrawerIndex g == 0 && decide (g.round + 1 > g.maxRounds)) = true
    · refine ⟨_, by rw [nextTurn, if_neg h0, if_pos hfin], ?_, ?_, ?_, ?_⟩
      · exact nextDrawerIndex_fallback g
      · exact nextDrawerIndex_present g
      · intro _
        exact ⟨rfl, rfl, rfl, rfl, rfl, rfl, rfl⟩
      · intro hcon
        rw [Bool.and_eq_true, beq_iff_eq, decide_eq_true_iff] at hfin
        exact absurd hfin hcon
    · refine ⟨_, by rw [nextTurn, if_neg h0, if_neg hfin], ?_, ?_, ?_, ?_⟩
      · exact nextDrawerIndex_fallback g
      · exact nextDrawerIndex_present g
      · intro hcon
        rw [Bool.and_eq_true, beq_iff_eq, decide_eq_true_iff] at hfin
        exact absurd hcon hfin
      · intro _
        refine ⟨rfl, ?_, ?_, rfl, rfl, rfl, rfl, rfl⟩
        · rw [List.get?_map]
          cases g.players.get? (nextDrawerIndex g) <;> rfl
        · by_cases h : nextDrawerIndex g = 0 <;> simp [h]
  · decide

/-- Witness for C4 at the concrete scenario room. -/
theorem nextTurn_rotation_witness :
    0 < c4Game.players.length ∧ NextTurnSpec c4Game ["x1", "x2", "x3"] :=
  ⟨by decide, nextTurn_rotation.1 c4Game ["x1", "x2", "x3"] (by decide)⟩

/-! # C5: the drawing-phase word invariant -/

theorem lookup_setGame {l : List (String × Game)} {a : String} {g0 : Game}
    (c : Game) (h : List.lookup a l = some g0) :
    List.lookup a (l.map (fun kv => if kv.1 == a then (kv.1, c) else kv)) =
      some c := by
  induction l with
  | nil => simp at h
  | cons kv t ih =>
    simp only [List.map_cons]
    split
    · rename_i hbeq
      have hbeq2 : (a == kv.1) = true := beq_iff_eq.mpr (beq_iff_eq.mp hbeq).symm
      rw [List.lookup, hbeq2]
    · rename_i hbeq
      have hk : ¬ kv.1 = a := by simpa using hbeq
      have hbeq2 : (a == kv.1) = false :=
        beq_eq_false_iff_ne.mpr (fun hh => hk hh.symm)
      rw [List.lookup, hbeq2] at h
      rw [List.lookup, hbeq2]
      exact ih h

theorem lookup_filter_ne (l : List (String × Game)) (a : String) :
    List.lookup a (l.filter (fun kv => kv.1 != a)) = none := by
  induction l with
  | nil => rfl
  | cons kv t ih =>
    by_cases hk : kv.1 = a
    · rw [List.filter_cons_of_neg (by simpa using hk)]
      exact ih
    · rw [List.filter_cons_of_pos (by simpa using hk)]
      rw [List.lookup, beq_eq_false_iff_ne.mpr (fun hh => hk hh.symm)]
      exact ih

theorem mem_ids_filter_of_ne {players : List Player} {o uid : String}
    (hom : o ∈ players.map Player.id) (hne : o ≠ uid) :
    o ∈ (players.filter (fun p => p.id != uid)).map Player.id := by
  rcases List.mem_map.mp hom with ⟨p, hp, hpo⟩
  refine List.mem_map.mpr ⟨p, List.mem_filter.mpr ⟨hp, ?_⟩, hpo⟩
  rw [hpo]
  simpa using hne

/-- What removePlayer guarantees for a stored game whose owner is a member
(the invariant before the call): with survivors left, the stored game keeps
exactly the filtered players and an owner who is a surviving member and
never the departed id; a departing owner hands off to the survivor at the
(uniform) transfer index, auto-readying them when the game is finished;
with no survivor, the game is deleted and all four timer slots of the room
are cancelled. -/
def RemovePlayerSpec (m : GameManager) (gameId uid : String) (g : Game)
    (o : String) (r : Nat) : Prop :=
  (r < (g.players.filter (fun p => p.id != uid)).length →
    ∃ g1, lookupGame (removePlayer m gameId uid r) gameId = some g1 ∧
      g1.players = g.players.filter (fun p => p.id != uid) ∧
      ∃ o1, g1.ownerId = some o1 ∧
        o1 ∈ (g.players.filter (fun p => p.id != uid)).map Player.id ∧
        o1 ≠ uid ∧
        (o = uid → ∃ np,
          (g.players.filter (fun p => p.id != uid)).get? r = some np ∧
          o1 = np.id ∧ (g.status = "finished" → o1 ∈ g1.playersReady)) ∧
        (o ≠ uid → o1 = o)) ∧
  ((g.players.filter (fun p => p.id != uid)).length = 0 →
    lookupGame (removePlayer m gameId uid r) gameId = none ∧
    gameId ∉ (removePlayer m gameId uid r).timers ∧
    (gameId ++ "_choice") ∉ (removePlayer m gameId uid r).timers ∧
    (gameId ++ "_draw") ∉ (removePlayer m gameId uid r).timers ∧
    gameId ∉ (removePlayer m gameId uid r).hintTimers)

/-- C6: ownership and deletion behaviour of removePlayer, under the store
invariant that the owner is a current member. -/
theorem removePlayer_ownership (m : GameManager) (gameId uid : String)
    (g : Game) (o : String) (r : Nat)
    (hg : lookupGame m gameId = some g)
    (ho : g.ownerId = some o)
    (hom : o ∈ g.players.map Player.id) :
    RemovePlayerSpec m gameId uid g o r := by
  have hm1 : ∀ b : Bool,
      ((if b = true then clearGameTimers m gameId else m)).games = m.games := by
    intro b
    cases b
    · rfl
    · rfl
  constructor
  · intro hr
    have hlen : ¬ (((g.players.filter (fun p => p.id != uid)).length == 0) = true) := by
      simp only [beq_iff_eq]
      omega
    have hmod : r % (g.players.filter (fun p => p.id != uid)).length = r :=
      Nat.mod_eq_of_lt hr
    by_cases howner : g.ownerId = some uid
    · have houid : o = uid := by
        rw [howner] at ho
        exact (Option.some.inj ho).symm
      have hwas : (g.ownerId == some uid) = true := beq_iff_eq.mpr howner
      obtain ⟨np, hnp⟩ :
          ∃ np, (g.players.filter (fun p => p.id != uid)).get? r = some np :=
        ⟨_, List.get?_eq_get hr⟩
      have hnpmem : np ∈ g.players.filter (fun p => p.id != uid) :=
        List.get?_mem hnp
      have hnpne : np.id ≠ uid := by
        have := (List.mem_filter.mp hnpmem).2
        simpa using this
      have hrg : removePlayerGame g uid r =
          some { g with
            players := g.players.filter (fun p => p.id != uid)
            ownerId := some np.id
            playersReady :=
              if (g.status == "finished" &&
                  !((g.playersReady.filter (fun pid => pid != uid)).contains np.id))
              then (g.playersReady.filter (fun pid => pid != uid)) ++ [np.id]
              else g.playersReady.filter (fun pid => pid != uid) } := by
        unfold removePlayerGame
        dsimp only
        rw [if_neg hlen, if_pos hwas, hmod, hnp]
      have hlook : lookupGame (removePlayer m gameId uid r) gameId =
          removePlayerGame g uid r := by
        unfold removePlayer
        rw [hg]
        dsimp only
        rw [hrg]
        dsimp only
        unfold lookupGame setGame
        rw [hm1]
        exact lookup_setGame _ hg
      rw [hrg] at hlook
      refine ⟨_, hlook, rfl, np.id, rfl,
        List.mem_map.mpr ⟨np, hnpmem, rfl⟩, hnpne, ?_, ?_⟩
      · intro _
        refine ⟨np, hnp, rfl, ?_⟩
        intro hfin
        have hsf : (g.status == "finished") = true := beq_iff_eq.mpr hfin
        by_cases hc :
            ((g.playersReady.filter (fun pid => pid != uid)).contains np.id) = true
        · have hcond : (g.status == "finished" &&
              !((g.playersReady.filter (fun pid => pid != uid)).contains np.id)) =
              false := by
            rw [hsf, hc]
            rfl
          simp only [hcond, Bool.false_eq_true, if_false]
          exact List.mem_of_elem_eq_true hc
        · have hcf : ((g.playersReady.filter (fun pid => pid != uid)).contains np.id) =
              false := by
            simpa using hc
          have hcond : (g.status == "finished" &&
              !((g.playersReady.filter (fun pid => pid != uid)).contains np.id)) =
              true := by
            rw [hsf, hcf]
            rfl
          simp only [hcond, if_true]
          exact List.mem_append.mpr (Or.inr (List.mem_singleton.mpr rfl))
      · intro hone
        exact absurd houid hone
    · have hone : o ≠ uid := fun h => howner (h ▸ ho)
      have hwas : (g.ownerId == some uid) = false := by
        simpa using howner
      have hrg : removePlayerGame g uid r =
          some { g with
            players := g.players.filter (fun p => p.id != uid)
            playersReady := g.playersReady.filter (fun pid => pid != uid) } := by
        unfold removePlayerGame
        dsimp only
        rw [if_neg hlen, hwas]
        rfl
      have hlook : lookupGame (removePlayer m gameId uid r) gameId =
          removePlayerGame g uid r := by
        unfold removePlayer
        rw [hg]
        dsimp only
        rw [hrg]
        dsimp only
        unfold lookupGame setGame
        rw [hm1]
        exact lookup_setGame _ hg
      rw [hrg] at hlook
      refine ⟨_, hlook, rfl, o, ho,
        mem_ids_filter_of_ne hom hone, hone, ?_, ?_⟩
      · intro h
        exact absurd h hone
      · intro _
        rfl
  · intro hlen0
    have hrg : removePlayerGame g uid r = none := by
      unfold removePlayerGame
      dsimp only
      rw [if_pos (by simpa using hlen0)]
    have hrp : removePlayer m gameId uid r =
        clearGameTimers
          { m with games := m.games.filter (fun kv => kv.1 != gameId) } gameId := by
      unfold removePlayer
      rw [hg]
      dsimp only
      rw [hrg]
    refine ⟨?_, ?_, ?_, ?_, ?_⟩
    · rw [hrp]
      exact lookup_filter_ne m.games gameId
    · rw [hrp]
      intro hmem
      have := (List.mem_filter.mp hmem).2
      simp at this
    · rw [hrp]
      intro hmem
      have := (List.mem_filter.mp hmem).2
      simp at this
    · rw [hrp]
      intro hmem
      have := (List.mem_filter.mp hmem).2
      simp at this
    · rw [hrp]
      intro hmem
      have := (List.mem_filter.mp hmem).2
      simp at this

/-- Player constructor for the C6 witness room. -/
def c6P (i : String) : Player :=
  { id := i, name := i, avatar := "", score := 0,
    isDrawer := false, hasGuessed := false }

/-- Finished two-player room whose owner A is about to disconnect. -/
def c6Game : Game :=
  { id := "g6", roomCode := "ROOM6", ownerId := some "A"
    players := [c6P "A", c6P "B"]
    playersReady := [], bannedPlayers := []
    currentWord := some "word", wordChoices := none
    currentDrawer := some (c6P "A")
    round := 3, maxRounds := 2, drawTime := 80, status := "finished"
    gamePhase := "drawing", timeLeft := 0, drawingData := [], hints := "" }

/-- Manager store holding the C6 witness room and its timers. -/
def c6M : GameManager :=
  { games := [("g6", c6Game)]
    timers := ["g6", "g6_choice", "g6_draw"]
    hintTimers := ["g6"] }

/-- Witness for C6: the owner leaves the two-player room; index 0 selects
survivor B. -/
theorem removePlayer_ownership_witness :
    (lookupGame c6M "g6" = some c6Game ∧ c6Game.ownerId = some "A" ∧
     "A" ∈ c6Game.players.map Player.id) ∧
    RemovePlayerSpec c6M "g6" "A" c6Game "A" 0 :=
  ⟨⟨by decide, by decide, by decide⟩,
   removePlayer_ownership c6M "g6" "A" c6Game "A" 0
     (by decide) (by decide) (by decide)⟩

/-! # C7: start preconditions -/

/-- What the start action guarantees for a stored game: a non-owner
requester gets the explicit denial reason; an owner of a room with fewer
than two players gets a silent null (no started game and no error); an
owner of a full enough room gets the started game with every hasGuessed
reset, drawer players[0], three word choices, status playing, phase
choosing and a 10-second clock. -/
def StartGameSpec (m : GameManager) (gameId req : String)
    (words : List String) (g : Game) : Prop :=
  (g.ownerId ≠ some req →
    serviceStartGame m gameId req words =
      Except.error "Only the room owner can start the game") ∧
  (g.ownerId = some req → g.players.length < 2 →
    serviceStartGame m gameId req words = Except.ok none) ∧
  (g.ownerId = some req → 2 ≤ g.players.length →
    ∃ g', serviceStartGame m gameId req words = Except.ok (some g') ∧
      g'.players = g.players.map (fun p => { p with hasGuessed := false }) ∧
      (∀ p ∈ g'.players, p.hasGuessed = false) ∧
      (g'.currentDrawer.map Player.id) = (g.players.get? 0).map Player.id ∧
      g'.status = "playing" ∧ g'.wordChoices = some words ∧
      g'.gamePhase = "choosing" ∧ g'.timeLeft = 10)

/-- C7 (amended): the start action as implemented, with the player-count
precondition failing silently rather than with a reported reason. -/
theorem serviceStartGame_spec (m : GameManager) (gameId req : String)
    (words : List String) (g : Game)
    (hg : lookupGame m gameId = some g) :
    StartGameSpec m gameId req words g := by
  refine ⟨?_, ?_, ?_⟩
  · intro hne
    unfold serviceStartGame
    rw [hg]
    dsimp only
    rw [if_neg (by simpa using hne)]
  · intro hown hlt
    unfold serviceStartGame
    rw [hg]
    dsimp only
    rw [if_pos (beq_iff_eq.mpr hown)]
    unfold startGameMgr
    rw [if_pos hlt]
  · intro hown hge
    unfold serviceStartGame
    rw [hg]
    dsimp only
    rw [if_pos (beq_iff_eq.mpr hown)]
    unfold startGameMgr
    rw [if_neg (by omega)]
    refine ⟨_, rfl, rfl, ?_, ?_, rfl, rfl, rfl, rfl⟩
    · intro p hp
      rcases List.mem_map.mp hp with ⟨q, _, hq⟩
      rw [← hq]
    · rw [List.get?_map]
      cases g.players.get? 0 <;> rfl

/-- One-player room owned by the requester, used to exhibit the silent
start failure. -/
def c7Game : Game :=
  { id := "g7", roomCode := "ROOM7", ownerId := some "A"
    players := [{ id := "A", name := "A", avatar := "", score := 0,
                  isDrawer := false, hasGuessed := false }]
    playersReady := [], bannedPlayers := []
    currentWord := none, wordChoices := none, currentDrawer := none
    round := 1, maxRounds := 3, drawTime := 80, status := "waiting"
    gamePhase := "drawing", timeLeft := 0, drawingData := [], hints := "" }

/-- Manager store holding the one-player C7 room. -/
def c7M : GameManager :=
  { games := [("g7", c7Game)], timers := [], hintTimers := [] }

/-- Counterexample to C7 as stated: when the owner of a one-player room
requests start, the action is a no-op that returns null, and the caller
receives no denial reason (the result is never an error, so no message is
emitted by the start handler). -/
theorem c7_silent_failure_counterexample :
    c7Game.players.length < 2 ∧ c7Game.ownerId = some "A" ∧
    serviceStartGame c7M "g7" "A" ["w1", "w2", "w3"] = Except.ok none ∧
    (∀ e, serviceStartGame c7M "g7" "A" ["w1", "w2", "w3"] ≠
      Except.error e) := by
  refine ⟨by decide, by decide, rfl, ?_⟩
  intro e h
  rw [(rfl :
    serviceStartGame c7M "g7" "A" ["w1", "w2", "w3"] = Except.ok none)] at h
  exact Except.noConfusion h

/-- Two-player room used to witness the amended C7. -/
def c7Game2 : Game :=
  { c7Game with
    players := [{ id := "A", name := "A", avatar := "", score := 0,
                  isDrawer := false, hasGuessed := true },
                { id := "B", name := "B", avatar := "", score := 0,
                  isDrawer := false, hasGuessed := true }] }

/-- Manager store holding the two-player C7 room. -/
def c7M2 : GameManager :=
  { games := [("g7", c7Game2)], timers := [], hintTimers := [] }

/-- Witness for the amended C7 at the two-player room. -/
theorem serviceStartGame_spec_witness :
    lookupGame c7M2 "g7" = some c7Game2 ∧
    StartGameSpec c7M2 "g7" "A" ["w1", "w2", "w3"] c7Game2 :=
  ⟨by decide,
   serviceStartGame_spec c7M2 "g7" "A" ["w1", "w2", "w3"] c7Game2 (by decide)⟩

/-! # C8: restart -/

/-- What the restart action guarantees for a stored game: a non-owner
requester gets the denial reason; the owner gets the reset game — round 1,
cleared word / drawer / choices / drawing / hints, status waiting, owner
auto-readied, every score and guess flag reset — with the incoming
settings applied raw: only absent fields fall back to 80 / 3, out-of-range
values are kept as sent (no call to validateGameSettings on this path). -/
def RestartSpec (m : GameManager) (gameId req : String)
    (s : RawSettings) (g : Game) : Prop :=
  (g.ownerId ≠ some req →
    serviceRestartGame m gameId req s =
      Except.error "Only the room owner can restart the game") ∧
  (g.ownerId = some req →
    ∃ g', serviceRestartGame m gameId req s = Except.ok g' ∧
      g'.round = 1 ∧ g'.currentWord = none ∧ g'.currentDrawer = none ∧
      g'.wordChoices = none ∧ g'.drawingData = [] ∧ g'.hints = "" ∧
      g'.status = "waiting" ∧ g'.playersReady = g.ownerId.toList ∧
      g'.drawTime = s.drawTime.getD 80 ∧
      g'.maxRounds = s.maxRounds.getD 3 ∧
      (∀ p ∈ g'.players, p.score = 0 ∧ p.hasGuessed = false) ∧
      g'.players.map Player.id = g.players.map Player.id)

/-- C8 (amended): restart behaviour as implemented, without settings
validation. -/
theorem serviceRestartGame_spec (m : GameManager) (gameId req : String)
    (s : RawSettings) (g : Game)
    (hg : lookupGame m gameId = some g) :
    RestartSpec m gameId req s g := by
  constructor
  · intro hne
    unfold serviceRestartGame
    rw [hg]
    dsimp only
    rw [if_neg (by simpa using hne)]
  · intro hown
    unfold serviceRestartGame
    rw [hg]
    dsimp only
    rw [if_pos (beq_iff_eq.mpr hown)]
    refine ⟨_, rfl, rfl, rfl, rfl, rfl, rfl, rfl, rfl, rfl, rfl, rfl, ?_, ?_⟩
    · intro p hp
      rcases List.mem_map.mp hp with ⟨q, _, hq⟩
      rw [← hq]
      exact ⟨rfl, rfl⟩
    · unfold restartGameMgr
      rw [List.map_map]
      rfl

/-- Mid-game two-player room used for the C8 restart counterexample. -/
def c8Game : Game :=
  { id := "g8", roomCode := "ROOM8", ownerId := some "A"
    players := [{ id := "A", name := "A", avatar := "", score := 120,
                  isDrawer := false, hasGuessed := true },
                { id := "B", name := "B", avatar := "", score := 75,
                  isDrawer := false, hasGuessed := false }]
    playersReady := ["B"], bannedPlayers := []
    currentWord := some "word", wordChoices := none
    currentDrawer := some { id := "A", name := "A", avatar := "",
                            score := 120, isDrawer := false, hasGuessed := true }
    round := 3, maxRounds := 2, drawTime := 80, status := "finished"
    gamePhase := "drawing", timeLeft := 0, drawingData := [], hints := "" }

/-- Manager store holding the C8 room. -/
def c8M : GameManager :=
  { games := [("g8", c8Game)], timers := [], hintTimers := [] }

/-- Counterexample to C8 as stated: the owner restarts with drawTime 9999
and maxRounds 99; both out-of-range values are applied verbatim instead of
being replaced by the defaults that validateGameSettings would produce. -/
theorem c8_unvalidated_restart_counterexample :
    serviceRestartGame c8M "g8" "A" ⟨some 9999, some 99⟩ =
      Except.ok (restartGameMgr c8Game ⟨some 9999, some 99⟩) ∧
    (restartGameMgr c8Game ⟨some 9999, some 99⟩).drawTime = 9999 ∧
    (restartGameMgr c8Game ⟨some 9999, some 99⟩).maxRounds = 99 ∧
    ¬ (30 ≤ (restartGameMgr c8Game ⟨some 9999, some 99⟩).drawTime ∧
       (restartGameMgr c8Game ⟨some 9999, some 99⟩).drawTime ≤ 300) ∧
    validateGameSettings (some ⟨some 9999, some 99⟩) = (80, 3) :=
  ⟨rfl, by decide, by decide, by decide, by decide⟩

/-- Witness for the amended C8 at the concrete room. -/
theorem serviceRestartGame_spec_witness :
    lookupGame c8M "g8" = some c8Game ∧
    RestartSpec c8M "g8" "A" ⟨some 9999, some 99⟩ c8Game :=
  ⟨by decide,
   serviceRestartGame_spec c8M "g8" "A" ⟨some 9999, some 99⟩ c8Game (by decide)⟩

/-! # C9: the drawing event gate -/

/-- The color pattern as the claim words it: uppercase hex digits only
(no i flag). Used to exhibit the divergence from the implemented
case-insensitive test. -/
def claimColorOK (s : String) : Bool :=
  match s.toList with
  | '#' :: rest => rest.length == 6 &&
      rest.all (fun c => ('0' ≤ c && c ≤ '9') || ('A' ≤ c && c ≤ 'F'))
  | _ => false

/-- What the drawing handler guarantees: a stroke is appended exactly when
the sender is the current drawer, the game status is "playing" (whatever
the gamePhase), and the payload validates; an accepted stroke is appended
after the 5000/4000 cap with every other field untouched; and validation
is the conjunction of the coordinate ranges, the case-insensitive hex
color test, the line width range and the stroke kind. A rejected payload
yields none: no mutation and no error event. -/
def HandleDrawingSpec : Prop :=
  (∀ (g : Game) (s : String) (d : Stroke),
    (∃ g', handleDrawing g s d = some g') ↔
      ((g.currentDrawer.map Player.id) = some s ∧ g.status = "playing" ∧
       validateDrawingData d = true)) ∧
  (∀ (g : Game) (s : String) (d : Stroke) (g' : Game),
    handleDrawing g s d = some g' →
      g'.drawingData =
        (if g.drawingData.length > 5000
         then g.drawingData.drop (g.drawingData.length - 4000)
         else g.drawingData) ++ [d] ∧
      g'.players = g.players ∧ g'.currentWord = g.currentWord ∧
      g'.status = g.status ∧ g'.gamePhase = g.gamePhase ∧
      g'.currentDrawer = g.currentDrawer) ∧
  (∀ d : Stroke, validateDrawingData d = true ↔
    (0 ≤ d.x ∧ d.x ≤ 10000 ∧ 0 ≤ d.y ∧ d.y ≤ 10000 ∧
     0 ≤ d.prevX ∧ d.prevX ≤ 10000 ∧ 0 ≤ d.prevY ∧ d.prevY ≤ 10000 ∧
     isHexColor d.color = true ∧ 1 ≤ d.lineWidth ∧ d.lineWidth ≤ 50 ∧
     (d.kind = "draw" ∨ d.kind = "erase")))

/-- C9 (amended): the stroke gate as implemented. -/
theorem handleDrawing_spec : HandleDrawingSpec := by
  refine ⟨?_, ?_, ?_⟩
  · intro g s d
    constructor
    · rintro ⟨g', hg'⟩
      unfold handleDrawing at hg'
      split at hg'
      · rename_i hcond
        rw [Bool.and_eq_true] at hcond
        split at hg'
        · rename_i hval
          exact ⟨beq_iff_eq.mp hcond.1, beq_iff_eq.mp hcond.2, hval⟩
        · exact Option.noConfusion hg'
      · exact Option.noConfusion hg'
    · rintro ⟨h1, h2, h3⟩
      unfold handleDrawing
      rw [if_pos (by rw [beq_iff_eq.mpr h1, beq_iff_eq.mpr h2]; rfl),
        if_pos h3]
      exact ⟨_, rfl⟩
  · intro g s d g' h
    unfold handleDrawing at h
    split at h
    · split at h
      · cases h
        exact ⟨rfl, rfl, rfl, rfl, rfl, rfl⟩
      · exact Option.noConfusion h
    · exact Option.noConfusion h
  · intro d
    simp only [validateDrawingData, Bool.and_eq_true, Bool.or_eq_true,
      decide_eq_true_iff, beq_iff_eq]
    tauto

/-- Playing room in the choosing phase whose drawer is D. -/
def c9Game : Game :=
  { id := "g9", roomCode := "ROOM9", ownerId := some "D"
    players := [{ id := "D", name := "D", avatar := "", score := 0,
                  isDrawer := true, hasGuessed := false },
                { id := "E", name := "E", avatar := "", score := 0,
                  isDrawer := false, hasGuessed := false }]
    playersReady := [], bannedPlayers := []
    currentWord := none, wordChoices := some ["w1", "w2", "w3"]
    currentDrawer := some { id := "D", name := "D", avatar := "", score := 0,
                            isDrawer := true, hasGuessed := false }
    round := 1, maxRounds := 3, drawTime := 80, status := "playing"
    gamePhase := "choosing", timeLeft := 8, drawingData := [], hints := "" }

/-- The same room during the drawing phase. -/
def c9Game2 : Game :=
  { c9Game with
    gamePhase := "drawing", currentWord := some "word",
    wordChoices := none }

/-- A valid stroke with an uppercase color. -/
def c9s1 : Stroke :=
  { x := 10, y := 20, prevX := 11, prevY := 21, color := "#FF0000",
    lineWidth := 5, kind := "draw" }

/-- A stroke whose color is lowercase hex: rejected by the claim's
uppercase-only pattern, accepted by the implementation. -/
def c9s2 : Stroke :=
  { x := 10, y := 20, prevX := 11, prevY := 21, color := "#abcdef",
    lineWidth := 5, kind := "erase" }

/-- Counterexample to C9 as stated: the drawer's stroke is appended during
gamePhase "choosing" (the code gates on status "playing" only), and a
stroke whose color fails the claim's uppercase-only pattern is appended
as well (the implemented regex is case-insensitive). -/
theorem c9_gate_counterexample :
    c9Game.gamePhase = "choosing" ∧
    (handleDrawing c9Game "D" c9s1).map Game.drawingData = some [c9s1] ∧
    c9Game2.gamePhase = "drawing" ∧ c9s2.color = "#abcdef" ∧
    claimColorOK c9s2.color = false ∧
    (handleDrawing c9Game2 "D" c9s2).map Game.drawingData = some [c9s2] := by
  decide

/-- Result of the witness append. -/
def c9Res : Game := (handleDrawing c9Game2 "D" c9s1).getD c9Game2

/-- Witness for the amended C9: a concrete accepted stroke. -/
theorem handleDrawing_spec_witness :
    handleDrawing c9Game2 "D" c9s1 = some c9Res ∧
    (c9Res.drawingData =
      (if c9Game2.drawingData.length > 5000
       then c9Game2.drawingData.drop (c9Game2.drawingData.length - 4000)
       else c9Game2.drawingData) ++ [c9s1] ∧
     c9Res.players = c9Game2.players ∧
     c9Res.currentWord = c9Game2.currentWord ∧
     c9Res.status = c9Game2.status ∧
     c9Res.gamePhase = c9Game2.gamePhase ∧
     c9Res.currentDrawer = c9Game2.currentDrawer) :=
  ⟨by decide, handleDrawing_spec.2.1 c9Game2 "D" c9s1 c9Res (by decide)⟩

/-! # C10: sanitizer frame conditions -/

/-- C10: sanitizeGameForPlayer is pure on the embedded model (the source
operates on a shallow copy, leaving the input untouched); a null game maps
to null; an authorized viewer receives the game unchanged on every field;
an unauthorized viewer receives a copy that differs only in currentWord
(nulled) and possibly hints (the default underscore mask exactly when
hints were absent during the drawing phase). -/
theorem sanitizeGameForPlayer_frame :
    (∀ p : String, sanitizeGameForPlayer none p = none) ∧
    (∀ (g : Game) (p : String), canPlayerSeeWord g p = true →
      sanitizeGameForPlayer (some g) p = some g) ∧
    (∀ (g : Game) (p : String), canPlayerSeeWord g p = false →
      ∃ g', sanitizeGameForPlayer (some g) p = some g' ∧
        g'.currentWord = none ∧
        g'.hints = (if g.gamePhase = "drawing" ∧ g.hints = ""
                    then defaultHints g.currentWord else g.hints) ∧
        g'.id = g.id ∧ g'.roomCode = g.roomCode ∧ g'.ownerId = g.ownerId ∧
        g'.players = g.players ∧ g'.playersReady = g.playersReady ∧
        g'.bannedPlayers = g.bannedPlayers ∧ g'.wordChoices = g.wordChoices ∧
        g'.currentDrawer = g.currentDrawer ∧ g'.round = g.round ∧
        g'.maxRounds = g.maxRounds ∧ g'.drawTime = g.drawTime ∧
        g'.status = g.status ∧ g'.gamePhase = g.gamePhase ∧
        g'.timeLeft = g.timeLeft ∧ g'.drawingData = g.drawingData) := by
  refine ⟨fun p => rfl, ?_, ?_⟩
  · intro g p h
    unfold sanitizeGameForPlayer
    dsimp only
    rw [if_pos h]
  · intro g p h
    unfold sanitizeGameForPlayer
    dsimp only
    rw [if_neg (by simp [h])]
    refine ⟨_, rfl, rfl, ?_, rfl, rfl, rfl, rfl, rfl, rfl, rfl, rfl, rfl,
      rfl, rfl, rfl, rfl, rfl, rfl⟩
    by_cases hb : g.gamePhase = "drawing" ∧ g.hints = ""
    · rw [if_pos (by simp only [Bool.and_eq_true, beq_iff_eq]; exact hb),
        if_pos hb]
    · rw [if_neg (by simp only [Bool.and_eq_true, beq_iff_eq]; exact hb),
        if_neg hb]

/-- Mid-drawing room with no hints yet, viewed by a non-guesser. -/
def c10Game : Game :=
  { id := "g10", roomCode := "ROOM10", ownerId := some "D"
    players := [{ id := "D", name := "D", avatar := "", score := 0,
                  isDrawer := true, hasGuessed := false },
                { id := "E", name := "E", avatar := "", score := 0,
                  isDrawer := false, hasGuessed := false }]
    playersReady := [], bannedPlayers := []
    currentWord := some "hot dog", wordChoices := none
    currentDrawer := some { id := "D", name := "D", avatar := "", score := 0,
                            isDrawer := true, hasGuessed := false }
    round := 1, maxRounds := 3, drawTime := 80, status := "playing"
    gamePhase := "drawing", timeLeft := 60, drawingData := [], hints := "" }

/-- Witness for C10: the non-guessing viewer E gets the word nulled and
the default mask installed; everything else is untouched. -/
theorem sanitizeGameForPlayer_frame_witness :
    canPlayerSeeWord c10Game "E" = false ∧
    (∃ g', sanitizeGameForPlayer (some c10Game) "E" = some g' ∧
      g'.currentWord = none ∧
      g'.hints = (if c10Game.gamePhase = "drawing" ∧ c10Game.hints = ""
                  then defaultHints c10Game.currentWord else c10Game.hints) ∧
      g'.id = c10Game.id ∧ g'.roomCode = c10Game.roomCode ∧
      g'.ownerId = c10Game.ownerId ∧
      g'.players = c10Game.players ∧ g'.playersReady = c10Game.playersReady ∧
      g'.bannedPlayers = c10Game.bannedPlayers ∧
      g'.wordChoices = c10Game.wordChoices ∧
      g'.currentDrawer = c10Game.currentDrawer ∧ g'.round = c10Game.round ∧
      g'.maxRounds = c10Game.maxRounds ∧ g'.drawTime = c10Game.drawTime ∧
      g'.status = c10Game.status ∧ g'.gamePhase = c10Game.gamePhase ∧
      g'.timeLeft = c10Game.timeLeft ∧
      g'.drawingData = c10Game.drawingData) :=
  ⟨by decide, sanitizeGameForPlayer_frame.2.2 c10Game "E" (by decide)⟩

end Skribbl
